import Mathlib

/-!
Shallow embedding of the from-scratch neural-network engine of this
repository: the `OurLinear`, `OurTanh`, `OurMSELoss` and `OurDNN` classes.

Modelling conventions:
* Scalars are elements of an arbitrary commutative ring `R` (instantiated at
  `ℚ` for concrete evaluations and at `ℝ` with `Real.tanh` for analytic
  facts); the hyperbolic tangent is passed as a function parameter `tanh`.
* Python's mutable per-instance caches (`self.x`, `self.y`, `self.z`) become
  `Option R` fields: `none` models the attribute not having been set yet, and
  a `backward` call that would read an unset attribute (an `AttributeError`
  in Python, the spec's state error) returns `none`.
* Mutation becomes explicit state passing: `forward` returns the output
  together with the updated object, `backward` returns `Option` of the
  gradient together with the updated object.
-/

namespace NNFromScratch

/-- State of the `OurLinear` class: learnable `weight` and `bias`, and the
cached input `x` saved by `forward` (absent before the first forward call). -/
structure OurLinear (R : Type) where
  weight : R
  bias : R
  x : Option R
  deriving DecidableEq, Repr

/-- Embedding of `OurLinear.forward`: `self.x = x; out = x * self.weight +
self.bias; return out`. -/
def OurLinear.forward {R : Type} [CommRing R] (l : OurLinear R) (x : R) :
    R × OurLinear R :=
  (x * l.weight + l.bias, { l with x := some x })

/-- Embedding of `OurLinear.backward`: `grad_w = grad_out * self.x;
grad_b = grad_out; grad_in = grad_out * self.weight;
self.weight -= lr * grad_w; self.bias -= lr * grad_b; return grad_in`.
Reading the unset cache `self.x` is the error case (`none`). -/
def OurLinear.backward {R : Type} [CommRing R] (l : OurLinear R)
    (grad_out lr : R) : Option (R × OurLinear R) :=
  match l.x with
  | none => none
  | some x =>
    let grad_w := grad_out * x
    let grad_b := grad_out
    let grad_in := grad_out * l.weight
    some (grad_in,
      { l with weight := l.weight - lr * grad_w, bias := l.bias - lr * grad_b })

/-- State of the `OurTanh` class: the cached output `y` saved by `forward`
(absent before the first forward call). -/
structure OurTanh (R : Type) where
  y : Option R
  deriving DecidableEq, Repr

/-- Embedding of `OurTanh.forward`: `self.y = np.tanh(x); return self.y`. -/
def OurTanh.forward {R : Type} (tanh : R → R) (t : OurTanh R) (x : R) :
    R × OurTanh R :=
  let y := tanh x
  (y, { y := some y })

/-- Embedding of `OurTanh.backward`: `grad_in = grad_out * (1 - self.y**2);
return grad_in`. The learning rate is accepted but unused and the state is
unchanged. Reading the unset cache `self.y` is the error case (`none`). -/
def OurTanh.backward {R : Type} [CommRing R] (t : OurTanh R)
    (grad_out lr : R) : Option (R × OurTanh R) :=
  match t.y with
  | none => none
  | some y => some (grad_out * (1 - y ^ 2), t)

/-- State of the `OurMSELoss` class: the cached residual `z = y - x` saved by
`forward` (absent before the first forward call). -/
structure OurMSELoss (R : Type) where
  z : Option R
  deriving DecidableEq, Repr

/-- Embedding of `OurMSELoss.forward`: `self.z = (y - x); loss = self.z**2;
return loss` (here `x` is the prediction and `y` the target). -/
def OurMSELoss.forward {R : Type} [CommRing R] (m : OurMSELoss R) (x y : R) :
    R × OurMSELoss R :=
  let z := y - x
  (z ^ 2, { z := some z })

/-- Embedding of `OurMSELoss.backward`: `grad_in = -2 * self.z;
return grad_in`. Reading the unset cache `self.z` is the error case. -/
def OurMSELoss.backward {R : Type} [CommRing R] (m : OurMSELoss R) :
    Option (R × OurMSELoss R) :=
  match m.z with
  | none => none
  | some z => some (-2 * z, m)

/-- The closed set of duck-typed layer variants appearing in
`OurDNN.layers`: `OurLinear` and `OurTanh` instances. -/
inductive Layer (R : Type) where
  | linear : OurLinear R → Layer R
  | tanhLayer : OurTanh R → Layer R
  deriving DecidableEq, Repr

/-- Dispatch of `layer.forward(x)` over the two layer variants. -/
def Layer.forward {R : Type} [CommRing R] (tanh : R → R) :
    Layer R → R → R × Layer R
  | linear l, x =>
    let (y, l') := l.forward x
    (y, linear l')
  | tanhLayer t, x =>
    let (y, t') := t.forward tanh x
    (y, tanhLayer t')

/-- Dispatch of `layer.backward(grad_out, lr)` over the two layer variants. -/
def Layer.backward {R : Type} [CommRing R] :
    Layer R → R → R → Option (R × Layer R)
  | linear l, g, lr => (l.backward g lr).map fun p => (p.1, linear p.2)
  | tanhLayer t, g, lr => (t.backward g lr).map fun p => (p.1, tanhLayer p.2)

/-- State of the `OurDNN` class: the ordered list of layers built at
construction. -/
structure OurDNN (R : Type) where
  layers : List (Layer R)
  deriving DecidableEq, Repr

/-- Embedding of `OurDNN.__init__(n)`: for each of the `n` iterations append
one `OurLinear` and one `OurTanh`. The random `uniform(-1, 1)` draws for each
linear layer's weight and bias are supplied as an explicit list of `n` pairs
(`random.uniform` is the ambient random source; its values are parameters
here). All caches start unset. -/
def mkLayers {R : Type} : List (R × R) → List (Layer R)
  | [] => []
  | (w, b) :: rest =>
    Layer.linear ⟨w, b, none⟩ :: Layer.tanhLayer ⟨none⟩ :: mkLayers rest

/-- Embedding of the loop body of `OurDNN.forward`: `for layer in
self.layers: x = layer.forward(x)`, threading the updated layer states. -/
def forwardLayers {R : Type} [CommRing R] (tanh : R → R) :
    List (Layer R) → R → R × List (Layer R)
  | [], x => (x, [])
  | l :: ls, x =>
    let (y, l') := l.forward tanh x
    let (z, ls') := forwardLayers tanh ls y
    (z, l' :: ls')

/-- Embedding of `OurDNN.forward(x)`. -/
def OurDNN.forward {R : Type} [CommRing R] (tanh : R → R) (net : OurDNN R)
    (x : R) : R × OurDNN R :=
  let (y, ls) := forwardLayers tanh net.layers x
  (y, ⟨ls⟩)

/-- Embedding of the loop of `OurDNN.backward` in `part_000`: `for layer in
reversed(self.layers): grad_out = layer.backward(grad_out, lr)`. The layers
after the head are processed first (recursion on the tail), and the gradient
they return is fed to the head layer. -/
def backwardLayersRev {R : Type} [CommRing R] :
    List (Layer R) → R → R → Option (R × List (Layer R))
  | [], g, _ => some (g, [])
  | l :: ls, g, lr => do
    let (g1, ls') ← backwardLayersRev ls g lr
    let (g2, l') ← l.backward g1 lr
    return (g2, l' :: ls')

/-- Embedding of `OurDNN.backward(grad_out, lr)` as written in
`src/unnamed/part_000` (reverse traversal). -/
def OurDNN.backward {R : Type} [CommRing R] (net : OurDNN R)
    (grad_out lr : R) : Option (R × OurDNN R) :=
  (backwardLayersRev net.layers grad_out lr).map fun p => (p.1, ⟨p.2⟩)

/-- Embedding of the loop of `OurDNN.backward` as written in
`src/NNPrimer.ipynb`: `for layer in self.layers: grad_out =
layer.backward(grad_out, lr)` — the layers are traversed in forward
(construction) order, without `reversed`. -/
def backwardLayersFwd {R : Type} [CommRing R] :
    List (Layer R) → R → R → Option (R × List (Layer R))
  | [], g, _ => some (g, [])
  | l :: ls, g, lr => do
    let (g1, l') ← l.backward g lr
    let (g2, ls') ← backwardLayersFwd ls g1 lr
    return (g2, l' :: ls')

/-- Embedding of the `NNPrimer.ipynb` variant of `OurDNN.backward`
(forward-order traversal). -/
def OurDNN.backwardFwdOrder {R : Type} [CommRing R] (net : OurDNN R)
    (grad_out lr : R) : Option (R × OurDNN R) :=
  (backwardLayersFwd net.layers grad_out lr).map fun p => (p.1, ⟨p.2⟩)

/-- Embedding of `get_params` restricted to the from-scratch layers: collect
the `weight`s and `bias`es of the `OurLinear` layers in network order. -/
def get_params {R : Type} : List (Layer R) → List R × List R
  | [] => ([], [])
  | Layer.linear l :: rest =>
    let (ws, bs) := get_params rest
    (l.weight :: ws, l.bias :: bs)
  | Layer.tanhLayer _ :: rest => get_params rest

/-- Helper: threading `forward` through a list of layers never changes any
linear layer's `weight` or `bias`, so `get_params` is preserved. -/
theorem get_params_forwardLayers {R : Type} [CommRing R] (tanh : R → R) :
    ∀ (ls : List (Layer R)) (x : R),
      get_params (forwardLayers tanh ls x).2 = get_params ls
  | [], _ => rfl
  | Layer.linear l :: rest, x => by
    simp only [forwardLayers, Layer.forward, OurLinear.forward, get_params]
    rw [get_params_forwardLayers tanh rest]
  | Layer.tanhLayer t :: rest, x => by
    simp only [forwardLayers, Layer.forward, OurTanh.forward, get_params]
    rw [get_params_forwardLayers tanh rest]

/-- C2: `OurLinear.backward` returns `grad_in = grad_out · weight` computed
with the pre-update weight, then sets `weight` to `weight − lr·(grad_out·x)`
and `bias` to `bias − lr·grad_out`; concretely over `ℚ` with weight `1/2`,
bias `−2/5`, input `1`, lr `1/10`, grad_out `1`: forward returns `1/10`,
backward returns `1/2`, and afterwards weight is `2/5` and bias `−1/2`. -/
theorem linear_backward_pre_update_weight :
    (∀ (R : Type) [CommRing R] (w b x g lr : R),
      (OurLinear.backward ⟨w, b, some x⟩ g lr : Option (R × OurLinear R)) =
        some (g * w, ⟨w - lr * (g * x), b - lr * g, some x⟩)) ∧
    OurLinear.forward (R := ℚ) ⟨1/2, -(2/5), none⟩ 1 =
      (1/10, ⟨1/2, -(2/5), some 1⟩) ∧
    OurLinear.backward (R := ℚ) ⟨1/2, -(2/5), some 1⟩ 1 (1/10) =
      some (1/2, ⟨2/5, -(1/2), some 1⟩) :=
  ⟨fun _ _ _ _ _ _ _ => rfl, by norm_num [OurLinear.forward],
    by norm_num [OurLinear.backward]⟩

/-- C3: `OurMSELoss.forward p t` returns `(t − p)²` (caching the residual
`t − p`), and the immediately following `backward` returns `−2·(t − p)`. -/
theorem mseloss_forward_backward (R : Type) [CommRing R] (m : OurMSELoss R)
    (p t : R) :
    m.forward p t = ((t - p) ^ 2, ⟨some (t - p)⟩) ∧
    (OurMSELoss.backward ⟨some (t - p)⟩ : Option (R × OurMSELoss R)) =
      some (-2 * (t - p), ⟨some (t - p)⟩) :=
  ⟨rfl, rfl⟩

/-- C4: `OurTanh.forward x` returns `tanh x` and caches that output; the
subsequent `backward grad_out lr` returns `grad_out · (1 − y²)` from the
cached output `y`, for every `lr`, and leaves the state (which holds no
learnable parameters) unchanged. -/
theorem tanh_forward_backward (R : Type) [CommRing R] (tanh : R → R)
    (t : OurTanh R) (x g lr : R) :
    t.forward tanh x = (tanh x, ⟨some (tanh x)⟩) ∧
    (OurTanh.backward ⟨some (tanh x)⟩ g lr : Option (R × OurTanh R)) =
      some (g * (1 - tanh x ^ 2), ⟨some (tanh x)⟩) :=
  ⟨rfl, rfl⟩

/-- C5: `backward` on a freshly constructed `OurLinear` (any random draws
`w`, `b`, empty cache), `OurTanh`, or `OurMSELoss` fails with the state
error (`none`) rather than returning a value. -/
theorem backward_before_forward_fails (R : Type) [CommRing R] (w b g lr : R) :
    (OurLinear.backward ⟨w, b, none⟩ g lr : Option (R × OurLinear R)) = none ∧
    (OurTanh.backward ⟨none⟩ g lr : Option (R × OurTanh R)) = none ∧
    (OurMSELoss.backward ⟨none⟩ : Option (R × OurMSELoss R)) = none :=
  ⟨rfl, rfl, rfl⟩

/-- C6: for every layer (Linear or Tanh) in any state, calling `forward`
twice in a row on the same input returns the same value both times and
leaves the layer in the same state as a single call: each forward overwrites
the cache. -/
theorem forward_twice_idempotent (R : Type) [CommRing R] (tanh : R → R)
    (l : Layer R) (x : R) :
    Layer.forward tanh (l.forward tanh x).2 x = l.forward tanh x := by
  cases l <;> rfl

/-- C7: `forward` never modifies learnable parameters: `OurLinear.forward`
changes only the cached input, and `OurDNN.forward` leaves the parameter
snapshot `get_params` of every layer unchanged. -/
theorem forward_preserves_params (R : Type) [CommRing R] (tanh : R → R)
    (l : OurLinear R) (x : R) (net : OurDNN R) :
    (l.forward x).2 = { l with x := some x } ∧
    get_params (net.forward tanh x).2.layers = get_params net.layers :=
  ⟨rfl, get_params_forwardLayers tanh net.layers x⟩

/-- C1 (divergence evidence): the `part_000` variant `OurDNN.backward`
processes the layers after the head first and feeds their returned gradient
to the head (reverse traversal, first conjunct), and on the concrete network
[Linear(weight 2, bias 0, cached input 1), Tanh(cached output 1/2)] with
grad_out 1, lr 1 it returns gradient `3/2` and updates the weight with the
tanh-adjusted gradient (new weight `5/4`, new bias `−3/4`); the
`NNPrimer.ipynb` variant, traversing in forward order, instead updates the
weight with the raw incoming gradient (new weight `1`, new bias `−1`),
contradicting the reverse-order claim for that variant. -/
theorem backward_reverse_order :
    (∀ (R : Type) [CommRing R] (l : Layer R) (ls : List (Layer R)) (g lr : R),
      backwardLayersRev (l :: ls) g lr =
        (backwardLayersRev ls g lr).bind fun q =>
          (l.backward q.1 lr).map fun p => (p.1, p.2 :: q.2)) ∧
    OurDNN.backward (R := ℚ)
        ⟨[Layer.linear ⟨2, 0, some 1⟩, Layer.tanhLayer ⟨some (1/2)⟩]⟩ 1 1 =
      some (3/2,
        ⟨[Layer.linear ⟨5/4, -(3/4), some 1⟩, Layer.tanhLayer ⟨some (1/2)⟩]⟩) ∧
    OurDNN.backwardFwdOrder (R := ℚ)
        ⟨[Layer.linear ⟨2, 0, some 1⟩, Layer.tanhLayer ⟨some (1/2)⟩]⟩ 1 1 =
      some (3/2,
        ⟨[Layer.linear ⟨1, -1, some 1⟩, Layer.tanhLayer ⟨some (1/2)⟩]⟩) := by
  refine ⟨fun R _ l ls g lr => ?_,
    by norm_num [OurDNN.backward, backwardLayersRev, Layer.backward,
      OurLinear.backward, OurTanh.backward],
    by norm_num [OurDNN.backwardFwdOrder, backwardLayersFwd, Layer.backward,
      OurLinear.backward, OurTanh.backward]⟩
  cases hrec : backwardLayersRev ls g lr with
  | none => simp [backwardLayersRev, hrec]
  | some q =>
    obtain ⟨g1, ls'⟩ := q
    cases hb : l.backward g1 lr with
    | none => simp [backwardLayersRev, hrec, hb]
    | some p => simp [backwardLayersRev, hrec, hb]

/-- C8: on the two-layer network [Linear(weight 3, bias 1, cached input 2),
Tanh(cached output 1/3)] with grad_out 1, lr 1, applying the layers'
backward in forward (construction) order produces different updated
parameters than applying them in reverse order: the two traversal-order
embeddings are not equivalent. -/
theorem traversal_order_distinguishable :
    Option.map (fun p => get_params p.2)
        (backwardLayersRev (R := ℚ)
          [Layer.linear ⟨3, 1, some 2⟩, Layer.tanhLayer ⟨some (1/3)⟩] 1 1) ≠
      Option.map (fun p => get_params p.2)
        (backwardLayersFwd (R := ℚ)
          [Layer.linear ⟨3, 1, some 2⟩, Layer.tanhLayer ⟨some (1/3)⟩] 1 1) := by
  norm_num [backwardLayersRev, backwardLayersFwd, Layer.backward,
    OurLinear.backward, OurTanh.backward, get_params]

/-- C9: a network constructed with zero layer pairs has an empty layer list;
its `forward` returns the input unchanged and its `backward` succeeds and
returns the incoming gradient unchanged, with no state modified. -/
theorem empty_network_identity (R : Type) [CommRing R] (tanh : R → R)
    (x g lr : R) :
    mkLayers ([] : List (R × R)) = [] ∧
    OurDNN.forward tanh (⟨[]⟩ : OurDNN R) x = (x, ⟨[]⟩) ∧
    OurDNN.backward (⟨[]⟩ : OurDNN R) g lr = some (g, ⟨[]⟩) :=
  ⟨rfl, rfl, rfl⟩

/-- C10: over `ℝ` with the real hyperbolic tangent, `OurTanh.forward x`
caches `y = tanh x` with `−1 < y < 1`, hence `0 < 1 − y² ≤ 1`; the value
`grad_out · (1 − y²)` returned by the subsequent `backward` satisfies
`|grad_in| ≤ |grad_out|` and never has the opposite sign of `grad_out`. -/
theorem tanh_backward_bounded (x g lr : ℝ) :
    (OurTanh.forward Real.tanh ⟨none⟩ x).2 = ⟨some (Real.tanh x)⟩ ∧
    -1 < Real.tanh x ∧ Real.tanh x < 1 ∧
    0 < 1 - Real.tanh x ^ 2 ∧ 1 - Real.tanh x ^ 2 ≤ 1 ∧
    OurTanh.backward (⟨some (Real.tanh x)⟩ : OurTanh ℝ) g lr =
      some (g * (1 - Real.tanh x ^ 2), ⟨some (Real.tanh x)⟩) ∧
    |g * (1 - Real.tanh x ^ 2)| ≤ |g| ∧
    0 ≤ g * (g * (1 - Real.tanh x ^ 2)) := by
  have hlt : ∀ z : ℝ, Real.tanh z < 1 := fun z => by
    rw [Real.tanh_eq_sinh_div_cosh]
    exact (div_lt_one (Real.cosh_pos z)).mpr (Real.sinh_lt_cosh z)
  have h1 : Real.tanh x < 1 := hlt x
  have h2 : -1 < Real.tanh x := by
    have := hlt (-x)
    rw [Real.tanh_neg] at this
    linarith
  have h0 : 0 < 1 - Real.tanh x ^ 2 := by nlinarith
  refine ⟨rfl, h2, h1, h0, by nlinarith [sq_nonneg (Real.tanh x)], rfl, ?_, ?_⟩
  · rw [abs_mul, abs_of_pos h0]
    exact mul_le_of_le_one_right (abs_nonneg g)
      (by nlinarith [sq_nonneg (Real.tanh x)])
  · nlinarith [mul_nonneg (mul_self_nonneg g) h0.le]

end NNFromScratch
